import Mathlib

/-!
Verification of the authorization, route-guard, identity-merge and
submission-gate core of the G7KAIH school activity system.

The TypeScript sources are embedded shallowly:

* JavaScript strings that are only compared/prefix-tested (request
  pathnames) are modelled as `List Char`; `String.prototype.startsWith`
  becomes `List.isPrefixOf`.
* Role names and redirect targets are modelled as Lean `String`s.
* Database reads (`.eq(...).maybeSingle()`, filtered selects) are
  modelled as filters over an explicit list of rows.
* JavaScript `Map`s keyed by user id are modelled as association lists
  with overwrite-on-set, and plain-object accumulators as functions
  `String → Option _`.
-/

namespace G7KAIH

/-- Pathnames are JavaScript strings; model them as lists of characters. -/
abbrev JSStr := List Char

/-- JS `s.startsWith(pre)` on pathnames (src/src/middleware.ts uses
`pathname.startsWith(route)`). -/
def jsStartsWith (s pre : JSStr) : Bool := pre.isPrefixOf s

/-- Terminal outcome of the route-guard middleware: pass the request
through, redirect (302) to a path, or reject with an HTTP status and a
structured `{error}` payload. -/
inductive Decision where
  | allow : Decision
  | redirect (target : String) : Decision
  | reject (status : Nat) (error : String) : Decision
  deriving DecidableEq, Repr

/-- The fields of the `user_profiles` row the middleware reads
(src/src/middleware.ts line 68): `roleid` (nullable integer, 0/null are
falsy) and the `is_guruwali` capability flag. -/
structure MwProfile where
  roleid : Option Nat
  is_guruwali : Bool
  deriving DecidableEq, Repr

/-- JS truthiness of `profile?.roleid` (null and 0 are falsy). -/
def roleidTruthy : Option Nat → Bool
  | some n => n != 0
  | none => false

/-- JS `String.prototype.toLowerCase`, modelled characterwise (role
names in this system are ASCII). -/
def jsToLower (s : String) : String := ⟨s.data.map Char.toLower⟩

/-- `roleKey` from src/src/middleware.ts lines 80-82:
`roleName?.toLowerCase() ?? roleName ?? ''`. -/
def roleKeyOf : Option String → String
  | some r => jsToLower r
  | none => ""

/-- `hasGuruWaliFlag` from src/src/middleware.ts line 83. -/
def hasGuruWaliFlag (p : MwProfile) (roleKey : String) : Bool :=
  p.is_guruwali || p.roleid == some 6 || roleKey == "guruwali"

/-- `isGuruWali` from src/src/middleware.ts line 119. -/
def isGuruWaliOf (p : MwProfile) (roleKey : String) : Bool :=
  roleKey == "guruwali" || hasGuruWaliFlag p roleKey

/-- Public routes not requiring authentication (src/src/middleware.ts
line 40). -/
def publicRoutes : List JSStr :=
  ["/login".data, "/auth/callback".data, "/auth/confirm".data, "/error".data,
   "/auth/auth-code-error".data, "/tos".data]

/-- The route-guard middleware of src/src/middleware.ts, as a function of
the authenticated-user flag, the profile row (if any), the resolved role
name (if any) and the request pathname.  Mirrors the control flow of
`middleware` lines 36-203. -/
def middleware (user : Bool) (profile : Option MwProfile)
    (roleName : Option String) (pathname : JSStr) : Decision :=
  let isApiRoute := jsStartsWith pathname "/api".data
  let isPublicRoute := publicRoutes.any (fun route => jsStartsWith pathname route)
  if !user then
    if isApiRoute then .reject 401 "Unauthorized"
    else if !isPublicRoute && pathname != "/".data then .redirect "/login"
    else .allow
  else if !isPublicRoute then
    match profile with
    | some p =>
      if roleidTruthy p.roleid then
        let roleKey := roleKeyOf roleName
        if jsStartsWith pathname "/dashboard".data && roleKey != "admin" && roleKey != "teacher" then
          match roleKey with
          | "teacher" => .redirect "/guru"
          | "guruwali" => .redirect "/guruwali"
          | "student" => .redirect "/siswa"
          | "parent" => .redirect "/orangtua"
          | _ => .redirect "/unknown"
        else if jsStartsWith pathname "/siswa".data && roleKey != "student" then
          match roleKey with
          | "admin" => .redirect "/dashboard"
          | "teacher" => .redirect "/guru"
          | "guruwali" => .redirect "/guruwali"
          | "parent" => .redirect "/orangtua"
          | _ => .redirect "/unknown"
        else
          let isTeacher := roleKey == "teacher"
          let isGuruWali := isGuruWaliOf p roleKey
          if jsStartsWith pathname "/guru".data && !isTeacher && !isGuruWali then
            match roleKey with
            | "admin" => .redirect "/dashboard"
            | "student" => .redirect "/siswa"
            | "parent" => .redirect "/orangtua"
            | _ => .redirect "/unknown"
          else if jsStartsWith pathname "/guruwali".data && !isGuruWali then
            match roleKey with
            | "admin" => .redirect "/dashboard"
            | "teacher" => .redirect "/guru"
            | "student" => .redirect "/siswa"
            | "parent" => .redirect "/orangtua"
            | _ => .redirect "/unknown"
          else if jsStartsWith pathname "/orangtua".data && roleKey != "parent" then
            match roleKey with
            | "admin" => .redirect "/dashboard"
            | "teacher" => .redirect "/guru"
            | "guruwali" => .redirect "/guruwali"
            | "student" => .redirect "/siswa"
            | _ => .redirect "/unknown"
          else if roleKey == "unknown" && pathname != "/unknown".data then
            .redirect "/unknown"
          else if pathname == "/".data then
            if roleKey == "admin" then .redirect "/dashboard"
            else if roleKey == "student" then .redirect "/siswa"
            else if roleKey == "teacher" then .redirect "/guru"
            else if isGuruWali then .redirect "/guruwali"
            else if roleKey == "parent" then .redirect "/orangtua"
            else if roleKey == "unknown" then .redirect "/unknown"
            else .redirect "/unknown"
          else .allow
      else if pathname != "/unknown".data then .redirect "/unknown"
      else .allow
    | none =>
      if pathname != "/unknown".data then .redirect "/unknown"
      else .allow
  else .allow

/-- Modelled from the spec, amended: the landing route the root-path
dispatch actually realizes.  The plain Teacher branch takes priority over
the supervisor capability: `teacher` lands on `/guru` even when the
`is_guruwali` flag is held; only a non-teacher guruwali-capable actor
lands on `/guruwali`. -/
def rootLanding (roleKey : String) (isGuruWali : Bool) : String :=
  if roleKey = "unknown" then "/unknown"
  else if roleKey = "admin" then "/dashboard"
  else if roleKey = "student" then "/siswa"
  else if roleKey = "teacher" then "/guru"
  else if isGuruWali then "/guruwali"
  else if roleKey = "parent" then "/orangtua"
  else "/unknown"

/-- C1, counterexample: the claim sends a supervisor-capable Teacher
(role enum `teacher`, `is_guruwali` flag set) requesting `/` to the
supervisor home `/guruwali`; the code's root dispatch checks the plain
`teacher` branch first and sends that actor to `/guru`. -/
theorem c1_root_dispatch_counterexample :
    middleware true (some ⟨some 2, true⟩) (some "teacher") ("/".data) =
      Decision.redirect "/guru" ∧
    middleware true (some ⟨some 2, true⟩) (some "teacher") ("/".data) ≠
      Decision.redirect "/guruwali" := by
  decide

/-- C1, amended: root-path dispatch is a total function on resolved
roles: every authenticated actor with a truthy `roleid` requesting `/`
is redirected to exactly one landing route — Unknown to quarantine,
Admin to `/dashboard`, Student to `/siswa`, Teacher to `/guru` (the
plain Teacher branch takes priority over the supervisor capability
flag), a non-teacher supervisor-capable actor to `/guruwali`, Parent to
`/orangtua`, and any unmatched role to quarantine `/unknown`. -/
theorem c1_root_dispatch_total (p : MwProfile) (roleName : Option String)
    (h : roleidTruthy p.roleid = true) :
    middleware true (some p) roleName ("/".data) =
      Decision.redirect (rootLanding (roleKeyOf roleName) (isGuruWaliOf p (roleKeyOf roleName))) := by
  have hpub : publicRoutes.any (fun route => jsStartsWith ("/".data) route) = false := by decide
  simp only [middleware, hpub, h, Bool.not_true, Bool.false_and, if_false, Bool.not_false,
    Bool.true_and, if_true]
  set roleKey := roleKeyOf roleName with hrk
  by_cases hun : roleKey == "unknown" <;>
  by_cases had : roleKey == "admin" <;>
  by_cases hst : roleKey == "student" <;>
  by_cases hte : roleKey == "teacher" <;>
  by_cases hgw : isGuruWaliOf p roleKey = true <;>
  by_cases hpa : roleKey == "parent" <;>
    simp_all [rootLanding, jsStartsWith, Decision.redirect.injEq]

/-- C1 witness: the amended dispatch theorem applied to a concrete
admin actor. -/
theorem c1_root_dispatch_total_witness :
    middleware true (some ⟨some 4, false⟩) (some "admin") ("/".data) =
      Decision.redirect "/dashboard" :=
  c1_root_dispatch_total ⟨some 4, false⟩ (some "admin") (by decide)

/-- Two incomparable lists cannot both be prefixes of the same list:
used to show a pathname matching one route prefix cannot match an
unrelated one. -/
theorem jsStartsWith_false {s p : JSStr} (h : jsStartsWith s p = true)
    (q : JSStr) (hn : ¬(p <+: q ∨ q <+: p)) : jsStartsWith s q = false := by
  rw [jsStartsWith, List.isPrefixOf_iff_prefix] at h
  rw [jsStartsWith]
  by_contra hq
  rw [Bool.not_eq_false, List.isPrefixOf_iff_prefix] at hq
  exact hn ( List.prefix_or_prefix_of_prefix h hq)

/-- A pathname with the `/api` prefix matches none of the public
routes of src/src/middleware.ts line 40. -/
theorem api_not_public {pathname : JSStr}
    (h : jsStartsWith pathname ("/api".data) = true) :
    publicRoutes.any (fun route => jsStartsWith pathname route) = false := by
  simp only [publicRoutes, List.any_cons, List.any_nil, Bool.or_false]
  rw [jsStartsWith_false h ("/login".data) (by decide),
    jsStartsWith_false h ("/auth/callback".data) (by decide),
    jsStartsWith_false h ("/auth/confirm".data) (by decide),
    jsStartsWith_false h ("/error".data) (by decide),
    jsStartsWith_false h ("/auth/auth-code-error".data) (by decide),
    jsStartsWith_false h ("/tos".data) (by decide)]
  rfl

/-- C2, counterexample: the claim says protected-prefix matching is
exact on path-segment boundaries, so the sibling segment `/gurux` would
be matched by no protected prefix and a student requesting it would be
let through; the code's raw `startsWith` matching fires the `/guru`
check and redirects the student to `/siswa`. -/
theorem c2_prefix_boundary_counterexample :
    middleware true (some ⟨some 5, false⟩) (some "student") ("/gurux".data) =
      Decision.redirect "/siswa" ∧
    middleware true (some ⟨some 5, false⟩) (some "student") ("/gurux".data) ≠
      Decision.allow := by
  decide

/-- C2, amended: route-protection matching is raw string-prefix
matching, not segment-boundary matching: every pathname extending
`/guruwali` also matches the `/guru` prefix test (so the `/guru` role
check does evaluate for `/guruwali` requests, its condition merely
excludes guruwali-capable actors from being redirected), and sibling
segments such as `/gurux` are matched by `/guru` as well — a student
requesting `/gurux` is redirected to `/siswa` while a teacher
requesting `/gurux` is allowed through. -/
theorem c2_prefix_matching_raw :
    (∀ pathname : JSStr, jsStartsWith pathname ("/guruwali".data) = true →
      jsStartsWith pathname ("/guru".data) = true) ∧
    middleware true (some ⟨some 5, false⟩) (some "student") ("/gurux".data) =
      Decision.redirect "/siswa" ∧
    middleware true (some ⟨some 2, false⟩) (some "teacher") ("/gurux".data) =
      Decision.allow ∧
    middleware true (some ⟨some 6, false⟩) (some "guruwali") ("/guruwali/siswa".data) =
      Decision.allow := by
  refine ⟨?_, by decide, by decide, by decide⟩
  intro pathname h
  rw [jsStartsWith, List.isPrefixOf_iff_prefix] at h ⊢
  exact List.IsPrefix.trans (by decide) h

/-- C2 witness: the raw-prefix fact applied to the concrete pathname
`/guruwali/siswa`. -/
theorem c2_prefix_matching_raw_witness :
    jsStartsWith ("/guruwali/siswa".data) ("/guru".data) = true :=
  c2_prefix_matching_raw.1 ("/guruwali/siswa".data) (by decide)

/-- C3, counterexample: the claim says API-shaped routes never receive
a redirect — an authenticated actor with an unresolved profile should
get a 403; the code 302-redirects such a request to `/unknown`. -/
theorem c3_api_redirect_counterexample :
    middleware true none none ("/api/whatever".data) =
      Decision.redirect "/unknown" ∧
    middleware true none none ("/api/whatever".data) ≠
      Decision.reject 403 "Forbidden" := by
  decide

/-- C3, amended: an unauthenticated request to an API-shaped route is
rejected with the structured error `{error: "Unauthorized"}` and HTTP
401 (never a redirect); but an authenticated actor whose profile is
unresolved — no profile row, a falsy `roleid`, or the `unknown` role —
is 302-redirected to the quarantine route `/unknown` even on API-shaped
paths; the route guard produces no 403 for them. -/
theorem c3_api_unresolved (pathname : JSStr)
    (h : jsStartsWith pathname ("/api".data) = true) :
    (∀ profile roleName, middleware false profile roleName pathname =
      Decision.reject 401 "Unauthorized") ∧
    (∀ roleName, middleware true none roleName pathname =
      Decision.redirect "/unknown") ∧
    (∀ p roleName, roleidTruthy p.roleid = false →
      middleware true (some p) roleName pathname = Decision.redirect "/unknown") ∧
    (∀ p roleName, roleidTruthy p.roleid = true → roleKeyOf roleName = "unknown" →
      middleware true (some p) roleName pathname = Decision.redirect "/unknown") := by
  have hpub := api_not_public h
  have hne : pathname ≠ "/unknown".data := by
    rintro rfl; exact absurd h (by decide)
  have hdash := jsStartsWith_false h ("/dashboard".data) (by decide)
  have hsis := jsStartsWith_false h ("/siswa".data) (by decide)
  have hguru := jsStartsWith_false h ("/guru".data) (by decide)
  have hgw := jsStartsWith_false h ("/guruwali".data) (by decide)
  have hortu := jsStartsWith_false h ("/orangtua".data) (by decide)
  refine ⟨fun profile roleName => ?_, fun roleName => ?_,
    fun p roleName hr => ?_, fun p roleName hr hk => ?_⟩ <;>
    simp_all [middleware, hpub, hne, h, jsStartsWith]

/-- C3 witness: the amended API theorem applied to the concrete path
`/api/siswa` with no profile row. -/
theorem c3_api_unresolved_witness :
    middleware true none none ("/api/siswa".data) = Decision.redirect "/unknown" :=
  (c3_api_unresolved ("/api/siswa".data) (by decide)).2.1 none

/-! Submission gate: src/src/app/api/kegiatan/[kegiatanid]/route.ts. -/

/-- A row of the `submission_window` table (read at route.ts
lines 195-204: `select("is_open").eq("id", 1)`). -/
structure SubmissionWindowRow where
  id : Nat
  is_open : Bool
  deriving DecidableEq, Repr

/-- The `.eq("id", 1).maybeSingle()` lookup of the window singleton. -/
def lookupWindow (rows : List SubmissionWindowRow) : Option SubmissionWindowRow :=
  (rows.filter (fun r => r.id == 1)).head?

/-- `isSubmissionWindowOpen` (route.ts lines 195-204):
`data?.is_open ?? false` — an absent row reads as closed. -/
def isSubmissionWindowOpen (rows : List SubmissionWindowRow) : Bool :=
  match lookupWindow rows with
  | some r => r.is_open
  | none => false

def msPerDay : Nat := 86400000

/-- Asia/Jakarta has the fixed offset UTC+7. -/
def jakartaOffsetMs : Nat := 7 * 60 * 60 * 1000

/-- `todayInJakarta` (route.ts lines 7-14) formats the current instant
as a `YYYY-MM-DD` string in the Asia/Jakarta timezone; modelled as the
civil-day index (days since epoch, shifted by the fixed UTC+7 offset),
an order- and equality-preserving encoding of that string. -/
def todayInJakarta (nowMs : Nat) : Nat := (nowMs + jakartaOffsetMs) / msPerDay

/-- A row of the `aktivitas` table as read by the gate (route.ts
lines 339-345): keyed by task, owner and civil submission date, carrying
its creation timestamp. -/
structure Activity where
  kegiatanid : String
  userid : String
  submitted_date : Nat
  created_at : Option String
  deriving DecidableEq, Repr

/-- Outcome of the student gate portion of the kegiatan GET handler:
either the 403 window-closed error (route.ts lines 217-222, error
message "Pengumpulan belum dibuka. Silakan hubungi admin.") or the
`submissionStatus` record (lines 333-357). -/
inductive GateOutcome where
  | windowClosed : GateOutcome
  | ok (canSubmit : Bool) (lastSubmittedAt : Option String) : GateOutcome
  deriving DecidableEq, Repr

/-- The `.eq(kegiatanid).eq(userid).eq(submitted_date, today).maybeSingle()`
query of route.ts lines 339-345. -/
def findExistingToday (records : List Activity) (kegiatanid uid : String)
    (today : Nat) : Option Activity :=
  (records.filter (fun a =>
    a.kegiatanid == kegiatanid && a.userid == uid && a.submitted_date == today)).head?

/-- The submission-gate logic of the kegiatan GET handler (route.ts
lines 214-223 and 333-357): students are rejected outright when the
window is closed; then, for a student with a user id, `canSubmit` is
false exactly when a record for `(kegiatanid, userid, today)` already
exists, with `lastSubmittedAt` taken from that record. -/
def kegiatanGate (roleName : Option String) (userId : Option String)
    (windowRows : List SubmissionWindowRow) (records : List Activity)
    (kegiatanid : String) (nowMs : Nat) : GateOutcome :=
  if roleName == some "student" && !(isSubmissionWindowOpen windowRows) then
    .windowClosed
  else
    match roleName, userId with
    | some rn, some uid =>
      if rn == "student" then
        match findExistingToday records kegiatanid uid (todayInJakarta nowMs) with
        | some existing => .ok false existing.created_at
        | none => .ok true none
      else .ok true none
    | _, _ => .ok true none

/-- C5: when the submission window is closed, a student actor is denied
with the window-closed outcome regardless of any prior daily records,
and a non-student actor never receives the window-closed outcome. -/
theorem c5_window_closed_denies (wr : List SubmissionWindowRow)
    (recs : List Activity) (kid : String) (uid : Option String) (now : Nat)
    (h : isSubmissionWindowOpen wr = false) :
    kegiatanGate (some "student") uid wr recs kid now = .windowClosed ∧
    ∀ rn : Option String, rn ≠ some "student" →
      kegiatanGate rn uid wr recs kid now ≠ .windowClosed := by
  refine ⟨by simp [kegiatanGate, h], fun rn hrn => ?_⟩
  have hb : (rn == some "student") = false := by
    simpa using hrn
  simp only [kegiatanGate, hb, Bool.false_and, if_false]
  cases rn with
  | none => simp
  | some rn' =>
    cases uid with
    | none => simp
    | some u =>
      have : (rn' == "student") = false := by
        simp only [beq_eq_false_iff_ne, ne_eq]
        intro hc
        exact hrn (by rw [hc])
      simp only [this, if_false]
      split <;> simp_all

/-- C5 witness: a closed window denies a concrete student. -/
theorem c5_window_closed_denies_witness :
    kegiatanGate (some "student") (some "u1") [⟨1, false⟩] [] "k1" 0 =
      GateOutcome.windowClosed :=
  (c5_window_closed_denies [⟨1, false⟩] [] "k1" (some "u1") 0 (by decide)).1

/-- First instant (in epoch milliseconds) of the Jakarta civil day
after the one containing `nowMs`. -/
def nextDayStartJakarta (nowMs : Nat) : Nat :=
  (todayInJakarta nowMs + 1) * msPerDay - jakartaOffsetMs

/-- C6: `canSubmit` is anti-monotonic within a Jakarta civil day — if
the gate reports an existing submission at time T, it reports the same
at every T' of the same civil day; and, with the window open and no
record for the next day, the gate allows again at the first instant of
the next civil day (which the model pins down exactly). -/
theorem c6_anti_monotonic (wr : List SubmissionWindowRow)
    (recs : List Activity) (kid uid : String) (T T' : Nat)
    (last : Option String)
    (h1 : kegiatanGate (some "student") (some uid) wr recs kid T =
      .ok false last)
    (h2 : todayInJakarta T' = todayInJakarta T) :
    kegiatanGate (some "student") (some uid) wr recs kid T' =
      .ok false last ∧
    todayInJakarta (nextDayStartJakarta T) = todayInJakarta T + 1 ∧
    (∀ t, todayInJakarta t = todayInJakarta T + 1 → nextDayStartJakarta T ≤ t) ∧
    (findExistingToday recs kid uid (todayInJakarta T + 1) = none →
      kegiatanGate (some "student") (some uid) wr recs kid
        (nextDayStartJakarta T) = .ok true none) := by
  have hopen : isSubmissionWindowOpen wr = true := by
    by_contra hcl
    rw [Bool.not_eq_true] at hcl
    simp [kegiatanGate, hcl] at h1
  have hnext : todayInJakarta (nextDayStartJakarta T) = todayInJakarta T + 1 := by
    unfold todayInJakarta nextDayStartJakarta msPerDay jakartaOffsetMs
    unfold todayInJakarta msPerDay jakartaOffsetMs
    omega
  refine ⟨?_, hnext, ?_, ?_⟩
  · simp only [kegiatanGate, hopen, Bool.not_true, Bool.and_false, if_false] at h1 ⊢
    rw [h2]
    simpa using h1
  · intro t ht
    unfold todayInJakarta msPerDay jakartaOffsetMs at ht
    unfold nextDayStartJakarta todayInJakarta msPerDay jakartaOffsetMs
    omega
  · intro hno
    simp only [kegiatanGate, hopen, Bool.not_true, Bool.and_false, if_false]
    rw [hnext] at *
    simp [hno]

/-- C6 witness: a concrete student with a record on Jakarta day 19997 is
still blocked later the same day and free at the next day's first
instant. -/
theorem c6_anti_monotonic_witness :
    kegiatanGate (some "student") (some "u1") [⟨1, true⟩]
      [⟨"k1", "u1", 19997, some "ts"⟩] "k1" 1727800000000 =
      GateOutcome.ok false (some "ts") ∧
    kegiatanGate (some "student") (some "u1") [⟨1, true⟩]
      [⟨"k1", "u1", 19997, some "ts"⟩] "k1"
      (nextDayStartJakarta 1727775000000) = GateOutcome.ok true none := by
  have h := c6_anti_monotonic [⟨1, true⟩] [⟨"k1", "u1", 19997, some "ts"⟩]
    "k1" "u1" 1727775000000 1727800000000 (some "ts") (by decide) (by decide)
  exact ⟨h.1, h.2.2.2 (by decide)⟩

/-- C10: when the submission-window singleton row is absent from the
store, the window reads as closed and every student submission attempt
is denied rather than allowed by default. -/
theorem c10_absent_window_closed (wr : List SubmissionWindowRow)
    (recs : List Activity) (kid : String) (uid : Option String) (now : Nat)
    (h : lookupWindow wr = none) :
    isSubmissionWindowOpen wr = false ∧
    kegiatanGate (some "student") uid wr recs kid now = .windowClosed := by
  have hcl : isSubmissionWindowOpen wr = false := by
    simp [isSubmissionWindowOpen, h]
  exact ⟨hcl, by simp [kegiatanGate, hcl]⟩

/-- C10 witness: an empty window table denies a concrete student. -/
theorem c10_absent_window_closed_witness :
    isSubmissionWindowOpen [] = false ∧
    kegiatanGate (some "student") (some "u1") [] [] "k1" 0 =
      GateOutcome.windowClosed :=
  c10_absent_window_closed [] [] "k1" (some "u1") 0 (by decide)

/-! Teacher/guruwali student scoping: src/unnamed/part_003 (GET,
lines 112-141) and src/unnamed/part_004 (GET, lines 47-77) build a
`Map` from the union of the class-students query and the
assigned-students query. -/

/-- The `user_profiles` fields the scoping logic reads. -/
structure StudentRow where
  userid : String
  kelas : Option String
  roleid : Nat
  guruwali_userid : Option String
  deriving DecidableEq, Repr

/-- JS truthiness of a nullable string (null and "" are falsy). -/
def strOptTruthy : Option String → Bool
  | some s => s != ""
  | none => false

/-- The class-students query:
`.eq("roleid", siswaRoleId).eq("kelas", teacherClass)`. -/
def classStudents (rows : List StudentRow) (siswaRoleId : Nat)
    (teacherClass : String) : List StudentRow :=
  rows.filter (fun s => s.roleid == siswaRoleId && s.kelas == some teacherClass)

/-- The assigned-students query:
`.eq("roleid", siswaRoleId).eq("guruwali_userid", teacherId)`. -/
def assignedStudents (rows : List StudentRow) (siswaRoleId : Nat)
    (teacherId : String) : List StudentRow :=
  rows.filter (fun s => s.roleid == siswaRoleId && s.guruwali_userid == some teacherId)

/-- JS `Map.prototype.set`: overwrite the existing binding or append. -/
def mapSet (m : List (String × StudentRow)) (k : String) (v : StudentRow) :
    List (String × StudentRow) :=
  if m.any (fun p => p.1 == k) then
    m.map (fun p => if p.1 == k then (k, v) else p)
  else m ++ [(k, v)]

/-- The `for (const student of ...) if (student?.userid)
studentMap.set(student.userid, student)` loops. -/
def addAll (m : List (String × StudentRow)) (students : List StudentRow) :
    List (String × StudentRow) :=
  students.foldl (fun m s => if s.userid != "" then mapSet m s.userid s else m) m

/-- The `studentMap` of part_003 lines 112-141 (and identically the
`studentMap` of part_004 lines 47-77): class students are added when
the teacher has a truthy class, assigned students when the actor has
guruwali access. -/
def guruStudentMap (rows : List StudentRow) (siswaRoleId : Nat)
    (teacherClass : Option String) (isGuruWaliAccess : Bool)
    (teacherId : String) : List (String × StudentRow) :=
  let m1 :=
    match teacherClass with
    | some c => if c != "" then addAll [] (classStudents rows siswaRoleId c) else []
    | none => []
  if isGuruWaliAccess then addAll m1 (assignedStudents rows siswaRoleId teacherId) else m1

theorem mem_keys_mapSet (m : List (String × StudentRow)) (k : String)
    (v : StudentRow) (x : String) :
    x ∈ (mapSet m k v).map Prod.fst ↔ x ∈ m.map Prod.fst ∨ x = k := by
  unfold mapSet
  by_cases hany : m.any (fun p => p.1 == k)
  · have hkeys : (m.map (fun p => if p.1 == k then (k, v) else p)).map Prod.fst =
        m.map Prod.fst := by
      rw [List.map_map]
      refine List.map_congr_left (fun p _ => ?_)
      by_cases hp : p.1 == k
      · simp only [Function.comp_apply, hp, if_true]
        exact (eq_of_beq hp).symm
      · have hne : p.1 ≠ k := by simpa using hp
        simp [Function.comp_apply, hne]
    have hk : k ∈ m.map Prod.fst := by
      rw [List.any_eq_true] at hany
      obtain ⟨p, hp, hpk⟩ := hany
      exact List.mem_map.mpr ⟨p, hp, eq_of_beq hpk⟩
    simp only [hany, if_true, hkeys]
    constructor
    · exact Or.inl
    · rintro (h | rfl)
      · exact h
      · exact hk
  · simp [hany]

theorem mem_keys_addAll (students : List StudentRow)
    (m : List (String × StudentRow)) (x : String) :
    x ∈ (addAll m students).map Prod.fst ↔
      x ∈ m.map Prod.fst ∨ ∃ s ∈ students, s.userid = x ∧ x ≠ "" := by
  induction students generalizing m with
  | nil => simp [addAll]
  | cons a t ih =>
    show x ∈ (addAll (if a.userid != "" then mapSet m a.userid a else m) t).map Prod.fst ↔ _
    rw [ih]
    by_cases ha : a.userid != ""
    · rw [if_pos ha, mem_keys_mapSet]
      constructor
      · rintro ((h | rfl) | ⟨s, hs, rfl, hx⟩)
        · exact Or.inl h
        · exact Or.inr ⟨a, List.mem_cons_self a t, rfl, by simpa using ha⟩
        · exact Or.inr ⟨s, List.mem_cons_of_mem a hs, rfl, hx⟩
      · rintro (h | ⟨s, hs, rfl, hx⟩)
        · exact Or.inl (Or.inl h)
        · rcases List.mem_cons.mp hs with rfl | hs
          · exact Or.inl (Or.inr rfl)
          · exact Or.inr ⟨s, hs, rfl, hx⟩
    · rw [if_neg ha]
      constructor
      · rintro (h | ⟨s, hs, rfl, hx⟩)
        · exact Or.inl h
        · exact Or.inr ⟨s, List.mem_cons_of_mem a hs, rfl, hx⟩
      · rintro (h | ⟨s, hs, rfl, hx⟩)
        · exact Or.inl h
        · rcases List.mem_cons.mp hs with rfl | hs
          · exact absurd (by simpa using ha) hx
          · exact Or.inr ⟨s, hs, rfl, hx⟩

theorem guruStudentMap_some_t {rows : List StudentRow} {rid : Nat} {c tid : String}
    (hc : (c != "") = true) :
    guruStudentMap rows rid (some c) true tid =
      addAll (addAll [] (classStudents rows rid c)) (assignedStudents rows rid tid) := by
  simp [guruStudentMap, hc]

theorem guruStudentMap_some_f {rows : List StudentRow} {rid : Nat} {c tid : String}
    (hc : (c != "") = false) :
    guruStudentMap rows rid (some c) true tid =
      addAll [] (assignedStudents rows rid tid) := by
  simp [guruStudentMap, hc]

theorem guruStudentMap_none {rows : List StudentRow} {rid : Nat} {tid : String} :
    guruStudentMap rows rid none true tid =
      addAll [] (assignedStudents rows rid tid) := by
  simp [guruStudentMap]

/-- C4: for a supervision-capable teacher, the scoped student set is the
union (logical OR) of the class branch and the supervisor branch, the
branches being evaluated independently; in particular a supervised
student whose class differs from the teacher's own class is included. -/
theorem c4_supervisor_scope_union (rows : List StudentRow) (siswaRoleId : Nat)
    (teacherClass : Option String) (teacherId : String) :
    (∀ x : String,
      x ∈ (guruStudentMap rows siswaRoleId teacherClass true teacherId).map Prod.fst ↔
        ∃ s ∈ rows, s.userid = x ∧ x ≠ "" ∧ s.roleid = siswaRoleId ∧
          ((∃ c, teacherClass = some c ∧ c ≠ "" ∧ s.kelas = some c) ∨
            s.guruwali_userid = some teacherId)) ∧
    (∀ s ∈ rows, s.roleid = siswaRoleId → s.guruwali_userid = some teacherId →
      s.userid ≠ "" →
      s.userid ∈ (guruStudentMap rows siswaRoleId teacherClass true teacherId).map Prod.fst) := by
  have hmain : ∀ x : String,
      x ∈ (guruStudentMap rows siswaRoleId teacherClass true teacherId).map Prod.fst ↔
        ∃ s ∈ rows, s.userid = x ∧ x ≠ "" ∧ s.roleid = siswaRoleId ∧
          ((∃ c, teacherClass = some c ∧ c ≠ "" ∧ s.kelas = some c) ∨
            s.guruwali_userid = some teacherId) := by
    intro x
    cases teacherClass with
    | none =>
      rw [guruStudentMap_none, mem_keys_addAll]
      simp only [List.map_nil, List.not_mem_nil, false_or]
      constructor
      · rintro ⟨s, hs, rfl, hx⟩
        rw [assignedStudents, List.mem_filter] at hs
        obtain ⟨hmem, hcond⟩ := hs
        rw [Bool.and_eq_true, beq_iff_eq, beq_iff_eq] at hcond
        exact ⟨s, hmem, rfl, hx, hcond.1, Or.inr hcond.2⟩
      · rintro ⟨s, hs, rfl, hx, hrole, hbr⟩
        rcases hbr with ⟨c, hc, _, _⟩ | hgw
        · exact absurd hc (Option.noConfusion ·)
        · refine ⟨s, ?_, rfl, hx⟩
          rw [assignedStudents, List.mem_filter]
          exact ⟨hs, by rw [Bool.and_eq_true, beq_iff_eq, beq_iff_eq]; exact ⟨hrole, hgw⟩⟩
    | some c =>
      by_cases hc : c != ""
      · rw [guruStudentMap_some_t hc, mem_keys_addAll, mem_keys_addAll]
        simp only [List.map_nil, List.not_mem_nil, false_or]
        constructor
        · rintro (⟨s, hs, rfl, hx⟩ | ⟨s, hs, rfl, hx⟩)
          · rw [classStudents, List.mem_filter] at hs
            obtain ⟨hmem, hcond⟩ := hs
            rw [Bool.and_eq_true, beq_iff_eq, beq_iff_eq] at hcond
            exact ⟨s, hmem, rfl, hx, hcond.1,
              Or.inl ⟨c, rfl, by simpa using hc, hcond.2⟩⟩
          · rw [assignedStudents, List.mem_filter] at hs
            obtain ⟨hmem, hcond⟩ := hs
            rw [Bool.and_eq_true, beq_iff_eq, beq_iff_eq] at hcond
            exact ⟨s, hmem, rfl, hx, hcond.1, Or.inr hcond.2⟩
        · rintro ⟨s, hs, rfl, hx, hrole, hbr⟩
          rcases hbr with ⟨c', hc', _, hk⟩ | hgw
          · obtain rfl : c = c' := by injection hc'
            refine Or.inl ⟨s, ?_, rfl, hx⟩
            rw [classStudents, List.mem_filter]
            exact ⟨hs, by rw [Bool.and_eq_true, beq_iff_eq, beq_iff_eq]; exact ⟨hrole, hk⟩⟩
          · refine Or.inr ⟨s, ?_, rfl, hx⟩
            rw [assignedStudents, List.mem_filter]
            exact ⟨hs, by rw [Bool.and_eq_true, beq_iff_eq, beq_iff_eq]; exact ⟨hrole, hgw⟩⟩
      · rw [guruStudentMap_some_f (by simpa using hc), mem_keys_addAll]
        simp only [List.map_nil, List.not_mem_nil, false_or]
        have hceq : c = "" := by simpa using hc
        constructor
        · rintro ⟨s, hs, rfl, hx⟩
          rw [assignedStudents, List.mem_filter] at hs
          obtain ⟨hmem, hcond⟩ := hs
          rw [Bool.and_eq_true, beq_iff_eq, beq_iff_eq] at hcond
          exact ⟨s, hmem, rfl, hx, hcond.1, Or.inr hcond.2⟩
        · rintro ⟨s, hs, rfl, hx, hrole, hbr⟩
          rcases hbr with ⟨c', hc', hne, _⟩ | hgw
          · obtain rfl : c = c' := by injection hc'
            exact absurd hceq hne
          · refine ⟨s, ?_, rfl, hx⟩
            rw [assignedStudents, List.mem_filter]
            exact ⟨hs, by rw [Bool.and_eq_true, beq_iff_eq, beq_iff_eq]; exact ⟨hrole, hgw⟩⟩
  refine ⟨hmain, fun s hs hrole hgw hx => ?_⟩
  exact (hmain s.userid).mpr ⟨s, hs, rfl, hx, hrole, Or.inr hgw⟩

/-- C4 witness: a supervised student in class `7B`, assigned to a
teacher whose own class is `7A`, appears in the scoped map. -/
theorem c4_supervisor_scope_union_witness :
    "stu1" ∈ (guruStudentMap [⟨"stu1", some "7B", 5, some "t1"⟩] 5
      (some "7A") true "t1").map Prod.fst :=
  (c4_supervisor_scope_union [⟨"stu1", some "7B", 5, some "t1"⟩] 5
    (some "7A") "t1").2 ⟨"stu1", some "7B", 5, some "t1"⟩
    (by decide) (by decide) (by decide) (by decide)

/-! Identity merge engine: src/unnamed/part_003.  The curated alias
table (lines 10-14), the expansion of a seed id set (lines 34-45) and
the per-user statistics aggregation (lines 161-191). -/

/-- Primary id of the single curated alias group. -/
def aliasX : String := "6f07ae03-187e-4e25-a519-9f72f96f22ff"

/-- Secondary id of the single curated alias group. -/
def aliasY : String := "eca885ad-1119-48ca-8efe-91efcbfb54b4"

/-- The curated `VERIFIED_ALIASES` map (part_003 lines 10-14): both
member ids map to the full group list, whose first element is the
primary. -/
def VERIFIED_ALIASES : List (String × List String) :=
  [(aliasX, [aliasX, aliasY]), (aliasY, [aliasX, aliasY])]

/-- `expandWithVerifiedAliases` (part_003 lines 34-45): close a seed id
set under alias-group membership, one pass over the table; the JS
`Set` is modelled as a `Finset`. -/
def expandWithVerifiedAliases (ids : Finset String) : Finset String :=
  VERIFIED_ALIASES.foldl
    (fun set pl =>
      if pl.2.any (fun id => decide (id ∈ set)) || decide (pl.1 ∈ set) then
        pl.2.foldl (fun s id => insert id s) (insert pl.1 set)
      else set)
    ids

theorem expandWithVerifiedAliases_eq (S : Finset String) :
    expandWithVerifiedAliases S =
      if aliasX ∈ S ∨ aliasY ∈ S then insert aliasY (insert aliasX S) else S := by
  by_cases hX : aliasX ∈ S <;> by_cases hY : aliasY ∈ S <;>
    simp [expandWithVerifiedAliases, VERIFIED_ALIASES, hX, hY, Finset.Insert.comm,
      Finset.insert_idem, Finset.mem_insert]

/-- C9: `expand` is idempotent — expanding an already expanded seed set
adds nothing new. -/
theorem c9_expand_idempotent (S : Finset String) :
    expandWithVerifiedAliases (expandWithVerifiedAliases S) =
      expandWithVerifiedAliases S := by
  rw [expandWithVerifiedAliases_eq S]
  by_cases h : aliasX ∈ S ∨ aliasY ∈ S
  · rw [if_pos h, expandWithVerifiedAliases_eq, if_pos (by simp)]
    ext a
    simp only [Finset.mem_insert]
    tauto
  · rw [if_neg h, expandWithVerifiedAliases_eq, if_neg h]

/-- The per-user activity statistics record (`{ total, completed,
last }` of part_003 lines 161-170). -/
structure UserStats where
  total : Nat
  completed : Nat
  last : Option JSStr
  deriving DecidableEq, Repr

/-- The `last` update of part_003 lines 185-187: assign the incoming
timestamp when none is stored yet or when the incoming one is strictly
larger in JS string order (timestamps, as JS strings compared
lexicographically, are `List Char`). -/
def combineLast : Option JSStr → Option JSStr → Option JSStr
  | none, upd => upd
  | some o, some n => if o < n then some n else some o
  | some o, none => some o

/-- Accumulate one member's stats into a group's record (part_003
lines 183-187): counts are summed, the latest timestamp kept. -/
def addStats (prev s : UserStats) : UserStats :=
  ⟨prev.total + s.total, prev.completed + s.completed, combineLast prev.last s.last⟩

/-- One step of the aggregation loop of part_003 lines 174-191: an
aliased id is folded into its group primary (the first member of its
alias list), a non-aliased id is written through unchanged.  The output
object `aggregatedByUser` is modelled as a function. -/
def aggStep (acc : String → Option UserStats) (e : String × UserStats) :
    String → Option UserStats :=
  match VERIFIED_ALIASES.lookup e.1 with
  | some aliasList =>
    fun k => if k = aliasList.head! then
      some (addStats ((acc aliasList.head!).getD ⟨0, 0, none⟩) e.2)
    else acc k
  | none => fun k => if k = e.1 then some e.2 else acc k

/-- The `aggregatedByUser` map computed by the
`for (const [userid, stats] of Object.entries(byUser))` loop of
part_003 lines 172-191. -/
def aggregate (raw : List (String × UserStats)) : String → Option UserStats :=
  raw.foldl aggStep (fun _ => none)

theorem lookup_aliasX : VERIFIED_ALIASES.lookup aliasX = some [aliasX, aliasY] := by
  decide

theorem alias_lookup_shape {u : String} {l : List String}
    (h : VERIFIED_ALIASES.lookup u = some l) : l = [aliasX, aliasY] := by
  rw [VERIFIED_ALIASES] at h
  cases hb1 : u == aliasX with
  | true =>
    simp only [List.lookup, hb1] at h
    exact (Option.some_inj.mp h).symm
  | false =>
    cases hb2 : u == aliasY with
    | true =>
      simp only [List.lookup, hb1, hb2] at h
      exact (Option.some_inj.mp h).symm
    | false =>
      simp only [List.lookup, hb1, hb2] at h
      exact absurd h (Option.noConfusion ·)

/-- An id outside the alias table is never the primary of a group. -/
theorem passthrough_ne_primary {u : String} {l : List String}
    (h : VERIFIED_ALIASES.lookup u = some l) {id : String}
    (hid : VERIFIED_ALIASES.lookup id = none) : l.head! ≠ id := by
  obtain rfl := alias_lookup_shape h
  intro hq
  rw [show ([aliasX, aliasY].head! : String) = aliasX from rfl] at hq
  rw [← hq, lookup_aliasX] at hid
  exact Option.noConfusion hid

theorem lookup_eq_none_of_not_mem {t : List (String × UserStats)} {id : String}
    (h : id ∉ t.map Prod.fst) : t.lookup id = none := by
  induction t with
  | nil => rfl
  | cons a t ih =>
    obtain ⟨k, v⟩ := a
    rw [List.map_cons] at h
    have hk : (id == k) = false := by
      simp only [beq_eq_false_iff_ne, ne_eq]
      rintro rfl
      exact h (List.mem_cons_self _ _)
    simp only [List.lookup, hk]
    exact ih (fun hm => h (List.mem_cons_of_mem _ hm))

theorem aggStep_id_of_lookup_none (acc : String → Option UserStats)
    (k : String) (v : UserStats) {id : String}
    (hid : VERIFIED_ALIASES.lookup id = none) :
    aggStep acc (k, v) id = if k = id then some v else acc id := by
  unfold aggStep
  rcases hk : VERIFIED_ALIASES.lookup k with _ | l
  · simp only []
    by_cases hki : k = id
    · simp [hki]
    · rw [if_neg (fun h => hki h.symm), if_neg hki]
  · have hne := passthrough_ne_primary hk hid
    have hk_ne_id : k ≠ id := by
      rintro rfl
      rw [hk] at hid
      exact Option.noConfusion hid
    simp only []
    rw [if_neg (fun h => hne h.symm), if_neg hk_ne_id]

/-- A non-aliased id is never written by any other entry of the
aggregation loop: its final value is exactly its own raw entry. -/
theorem aggregate_foldl_passthrough (raw : List (String × UserStats))
    (acc : String → Option UserStats) (id : String)
    (hid : VERIFIED_ALIASES.lookup id = none)
    (hnd : (raw.map Prod.fst).Nodup) :
    raw.foldl aggStep acc id =
      match raw.lookup id with
      | some s => some s
      | none => acc id := by
  induction raw generalizing acc with
  | nil => rfl
  | cons a t ih =>
    obtain ⟨k, v⟩ := a
    rw [List.map_cons, List.nodup_cons] at hnd
    rw [List.foldl_cons, ih _ hnd.2]
    cases hki : id == k with
    | true =>
      obtain rfl : id = k := eq_of_beq hki
      have ht : t.lookup id = none := lookup_eq_none_of_not_mem hnd.1
      simp [List.lookup, hki, ht, aggStep_id_of_lookup_none acc id v hid]
    | false =>
      have hk : k ≠ id := fun h => by simp [h] at hki
      simp only [List.lookup, hki]
      rcases hl : t.lookup id with _ | s <;> simp only [hl]
      · rw [aggStep_id_of_lookup_none acc k v hid, if_neg hk]

/-- C7: for the curated alias group with primary X = `aliasX` and
secondary Y = `aliasY`, raw stats X ↦ {count 3, last 2024-01-01} and
Y ↦ {count 2, last 2024-01-05} aggregate to exactly
X ↦ {count 5, last 2024-01-05} — counts summed, the latest timestamp
kept, attributed to the primary only, with Y absent from the output —
while every non-aliased id passes through with its stats unchanged. -/
theorem c7_aggregate_group :
    aggregate [(aliasX, ⟨3, 0, some "2024-01-01".data⟩),
        (aliasY, ⟨2, 0, some "2024-01-05".data⟩)] aliasX =
      some ⟨5, 0, some "2024-01-05".data⟩ ∧
    aggregate [(aliasX, ⟨3, 0, some "2024-01-01".data⟩),
        (aliasY, ⟨2, 0, some "2024-01-05".data⟩)] aliasY = none ∧
    ∀ (raw : List (String × UserStats)) (id : String),
      (raw.map Prod.fst).Nodup → VERIFIED_ALIASES.lookup id = none →
      aggregate raw id = raw.lookup id := by
  refine ⟨by decide, by decide, fun raw id hnd hid => ?_⟩
  rw [aggregate, aggregate_foldl_passthrough raw _ id hid hnd]
  rcases raw.lookup id <;> rfl

/-- C7 witness: a non-aliased id keeps its raw stats. -/
theorem c7_aggregate_group_witness :
    aggregate [("other-id", ⟨7, 1, some "2024-02-02".data⟩)] "other-id" =
      some ⟨7, 1, some "2024-02-02".data⟩ := by
  rw [c7_aggregate_group.2.2 [("other-id", ⟨7, 1, some "2024-02-02".data⟩)]
    "other-id" (by decide) (by decide)]
  decide

theorem combineLast_some_some (o n : JSStr) :
    combineLast (some o) (some n) = some (max o n) := by
  rcases lt_or_ge o n with h | h
  · rw [combineLast, if_pos h, max_eq_right h.le]
  · rw [combineLast, if_neg (not_lt.mpr h), max_eq_left h]

theorem combineLast_right_comm (a b c : Option JSStr) :
    combineLast (combineLast a b) c = combineLast (combineLast a c) b := by
  rcases a with _ | a <;> rcases b with _ | b <;> rcases c with _ | c
  · rfl
  · rfl
  · rfl
  · show combineLast (some b) (some c) = combineLast (some c) (some b)
    rw [combineLast_some_some, combineLast_some_some, max_comm]
  · rfl
  · show combineLast (some a) (some c) = combineLast (combineLast (some a) (some c)) none
    rw [combineLast_some_some]
    rfl
  · show combineLast (combineLast (some a) (some b)) none = combineLast (some a) (some b)
    rw [combineLast_some_some]
    rfl
  · simp only [combineLast_some_some]
    rw [max_assoc, max_comm b c, ← max_assoc]

theorem addStats_right_comm (a s t : UserStats) :
    addStats (addStats a s) t = addStats (addStats a t) s := by
  simp only [addStats, combineLast_right_comm, Nat.add_right_comm]

theorem aggStep_comm {x y : String × UserStats} (hxy : x.1 = y.1 → x = y)
    (z : String → Option UserStats) :
    aggStep (aggStep z x) y = aggStep (aggStep z y) x := by
  rcases hx : VERIFIED_ALIASES.lookup x.1 with _ | lx <;>
    rcases hy : VERIFIED_ALIASES.lookup y.1 with _ | ly
  · -- both pass through
    by_cases hk : x.1 = y.1
    · rw [hxy hk]
    · have hk' : y.1 ≠ x.1 := fun h => hk h.symm
      funext k
      simp only [aggStep, hx, hy]
      by_cases k1 : k = y.1 <;> by_cases k2 : k = x.1
      · exact absurd (k2.symm.trans k1) hk
      · simp [k1, k2, hk, hk']
      · simp [k1, k2, hk, hk']
      · simp [k1, k2]
  · -- x passes through, y is aliased with primary ly.head!
    have hP : ly.head! ≠ x.1 := passthrough_ne_primary hy hx
    have hP' : x.1 ≠ ly.head! := fun h => hP h.symm
    funext k
    simp only [aggStep, hx, hy]
    by_cases k1 : k = ly.head! <;> by_cases k2 : k = x.1
    · exact absurd (k1.symm.trans k2) hP
    · simp [k1, k2, hP, hP']
    · simp [k1, k2, hP, hP']
    · simp [k1, k2]
  · -- x aliased, y passes through
    have hP : lx.head! ≠ y.1 := passthrough_ne_primary hx hy
    have hP' : y.1 ≠ lx.head! := fun h => hP h.symm
    funext k
    simp only [aggStep, hx, hy]
    by_cases k1 : k = lx.head! <;> by_cases k2 : k = y.1
    · exact absurd (k1.symm.trans k2) hP
    · simp [k1, k2, hP, hP']
    · simp [k1, k2, hP, hP']
    · simp [k1, k2]
  · -- both aliased: same primary, merge commutes
    obtain rfl := alias_lookup_shape hx
    obtain rfl := alias_lookup_shape hy
    have hhead : ([aliasX, aliasY] : List String).head! = aliasX := rfl
    funext k
    simp only [aggStep, hx, hy, hhead]
    by_cases k1 : k = aliasX
    · subst k1
      simp [addStats_right_comm]
    · simp [k1]

/-- C8: `aggregate` is order-independent — permuting the iteration
order of the raw per-user stats map yields an identical output map. -/
theorem c8_aggregate_order_independent (raw₁ raw₂ : List (String × UserStats))
    (hperm : raw₁.Perm raw₂) (hnd : (raw₁.map Prod.fst).Nodup) :
    aggregate raw₁ = aggregate raw₂ := by
  unfold aggregate
  refine hperm.foldl_eq' (fun x hx y hy z => ?_) _
  exact aggStep_comm (fun h => List.inj_on_of_nodup_map hnd hx hy h) z

/-- C8 witness: swapping the two alias-group entries leaves the
aggregated map unchanged. -/
theorem c8_aggregate_order_independent_witness :
    aggregate [(aliasX, ⟨3, 0, some "2024-01-01".data⟩),
        (aliasY, ⟨2, 0, some "2024-01-05".data⟩)] =
      aggregate [(aliasY, ⟨2, 0, some "2024-01-05".data⟩),
        (aliasX, ⟨3, 0, some "2024-01-01".data⟩)] :=
  c8_aggregate_order_independent _ _ (by decide) (by decide)

end G7KAIH
